import Mathlib

/-!
Verification of `common/download.go` (packer): a shallow embedding of the
download client and the HTTP downloader, with theorems settling the spec's
claims about them.

Modelling conventions:
* Go `uint` (64-bit) values are `Nat` kept below `2^64`; every arithmetic
  operation the source performs on a `uint` is followed by `% 2^64`, and the
  Go conversion `uint(i)` of an `int64` is `i % 2^64` on `Int`, matching
  two's-complement reinterpretation.
* Go `float64` is modelled by `GoFloat`: IEEE-754 special values are explicit
  constructors and finite values are exact rationals.  Rounding of inexact
  results is not modelled; every theorem below evaluates the float pipeline
  only at inputs where each binary64 operation is exact, so the model and the
  machine agree there.  The Go conversion `int(f)` truncates toward zero and
  is implementation-dependent for NaN, infinities and out-of-int64-range
  values; the model returns `none` in the implementation-dependent cases.
* The destination `*os.File` is a byte list plus a write position; `Write`
  overwrites at the position and extends the file, `Seek(0,0)` and
  `Seek(0,SEEK_END)` move the position.  Write calls themselves are modelled
  as succeeding (no claim under study turns on a failing `Write`); the
  fallible `Seek`/`Stat` calls and both HTTP round trips take their outcomes
  from an explicit environment `DownloadEnv`.
* The response body is consumed by `Read` into a 4096-byte buffer; the
  environment supplies the successive read results as a list of chunks
  followed by either a clean EOF or a read error, which is exactly the shape
  of outcomes the Go loop can observe (a read returning bytes together with a
  non-EOF error has its bytes dropped by the source, so it is the same as the
  error arriving on the next read).
-/

/-- Go `error` values, abstracted to their message. -/
abbrev GoError := String

/-- IEEE-754 binary64 values: exact-rational finite values plus the special
values.  Finite arithmetic is kept exact (see the file header). -/
inductive GoFloat where
  | finite (q : ℚ)
  | posInf
  | negInf
  | nan
  deriving DecidableEq

/-- Go `float64(n)` for an unsigned integer (exact-rational idealization). -/
def natToGoFloat (n : Nat) : GoFloat := .finite (n : ℚ)

/-- IEEE-754 division, on the cases reachable from `PercentProgress`:
division of finite values, with `0/0 = NaN` and `x/0 = ±Inf`. -/
def goDiv : GoFloat → GoFloat → GoFloat
  | .nan, _ => .nan
  | _, .nan => .nan
  | .finite a, .finite b =>
      if b = 0 then
        if a = 0 then .nan else if a > 0 then .posInf else .negInf
      else .finite (a / b)
  | .finite _, .posInf => .finite 0
  | .finite _, .negInf => .finite 0
  | .posInf, .finite b => if b ≥ 0 then .posInf else .negInf
  | .negInf, .finite b => if b ≥ 0 then .negInf else .posInf
  | .posInf, .posInf => .nan
  | .posInf, .negInf => .nan
  | .negInf, .posInf => .nan
  | .negInf, .negInf => .nan

/-- IEEE-754 multiplication, on the cases reachable from `PercentProgress`
(the right factor is the literal `100`). -/
def goMul : GoFloat → GoFloat → GoFloat
  | .nan, _ => .nan
  | _, .nan => .nan
  | .finite a, .finite b => .finite (a * b)
  | .posInf, .finite b => if b = 0 then .nan else if b > 0 then .posInf else .negInf
  | .negInf, .finite b => if b = 0 then .nan else if b > 0 then .negInf else .posInf
  | .finite a, .posInf => if a = 0 then .nan else if a > 0 then .posInf else .negInf
  | .finite a, .negInf => if a = 0 then .nan else if a > 0 then .negInf else .posInf
  | .posInf, .posInf => .posInf
  | .posInf, .negInf => .negInf
  | .negInf, .posInf => .negInf
  | .negInf, .negInf => .posInf

/-- Truncation of a rational toward zero, as Go's float-to-int conversion
truncates. -/
def truncRat (q : ℚ) : Int := if 0 ≤ q then ⌊q⌋ else -⌊-q⌋

/-- Go `int(f)` for a `float64` `f` on a 64-bit platform: truncation toward
zero when the result fits in `int64`; for NaN, infinities, and out-of-range
values the Go specification makes the result implementation-dependent, which
the model records as `none`. -/
def goFloatToInt : GoFloat → Option Int
  | .finite q =>
      let t := truncRat q
      if -(2 ^ 63) ≤ t ∧ t < 2 ^ 63 then some t else none
  | _ => none

/-- `HTTPDownloader`: per-transfer mutable state (`progress` and `total` are
Go `uint`s) plus the configured user agent. -/
structure HTTPDownloader where
  progress : Nat := 0
  total : Nat := 0
  userAgent : String := ""
  deriving DecidableEq

/-- `Progress()` accessor of `HTTPDownloader`. -/
def HTTPDownloader.Progress (d : HTTPDownloader) : Nat := d.progress

/-- `Total()` accessor of `HTTPDownloader`. -/
def HTTPDownloader.Total (d : HTTPDownloader) : Nat := d.total

/-- `DownloadConfig`: the configuration record.  The Go `map[string]Downloader`
is an association list (the only `Downloader` implementation in this core is
`HTTPDownloader`), `nil` being `none`; the `hash.Hash` handle is abstracted to
a name. -/
structure DownloadConfig where
  url : String
  targetPath : String
  downloaderMap : Option (List (String × HTTPDownloader))
  copyFile : Bool
  hashName : String
  checksum : List Nat
  userAgent : String
  deriving DecidableEq

/-- `DownloadClient`: one configuration and at most one active downloader.
The Go zero value of the `downloader` field is `nil`, i.e. `none`. -/
structure DownloadClient where
  config : DownloadConfig
  downloader : Option HTTPDownloader := none
  deriving DecidableEq

/-- The default scheme registry `NewDownloadClient` installs: `http` and
`https` each mapped to a fresh (zero-valued) `HTTPDownloader` carrying the
configured user agent. -/
def defaultDownloaderMap (ua : String) : List (String × HTTPDownloader) :=
  [("http", { userAgent := ua }),
   ("https", { userAgent := ua })]

/-- `NewDownloadClient`: defaults the scheme registry when absent, then builds
the client.  Go mutates the pointed-to config in place; the model returns the
(possibly updated) config alongside the client, whose `config` field holds it. -/
def NewDownloadClient (c : DownloadConfig) : DownloadConfig × DownloadClient :=
  let c' :=
    match c.downloaderMap with
    | none => { c with downloaderMap := some (defaultDownloaderMap c.userAgent) }
    | some _ => c
  (c', { config := c' })

/-- `PercentProgress`: `-1` when no downloader is active, otherwise
`int((float64(progress) / float64(total)) * 100)`.  The result is `none`
exactly when the float-to-int conversion is implementation-dependent. -/
def DownloadClient.PercentProgress (d : DownloadClient) : Option Int :=
  match d.downloader with
  | none => some (-1)
  | some dl =>
      goFloatToInt
        (goMul (goDiv (natToGoFloat dl.Progress) (natToGoFloat dl.Total))
          (natToGoFloat 100))

/-- Outcomes of the external collaborators used by one `Get()` call:
`os.Getwd` and the go-getter fetch. -/
structure GetEnv where
  getwdErr : Option GoError
  getterErr : Option GoError
  deriving DecidableEq

/-- `DownloadClient.Get`: resolves the working directory, then delegates the
whole fetch to the external go-getter client; on success returns the target
path.  The method writes no field of the receiver, so the returned client is
the receiver unchanged. -/
def DownloadClient.Get (d : DownloadClient) (env : GetEnv) :
    DownloadClient × String × Option GoError :=
  match env.getwdErr with
  | some e => (d, "", some e)
  | none =>
      match env.getterErr with
      | some e => (d, "", some e)
      | none => (d, d.config.targetPath, none)

/-- Iterated `Get` calls (the client state threaded through a sequence of
calls), used to speak about "any number of Get() calls". -/
def getMany (d : DownloadClient) (envs : List GetEnv) : DownloadClient :=
  envs.foldl (fun c e => (c.Get e).1) d

/-- The destination `*os.File`: contents and current write position. -/
structure GoFile where
  content : List Nat
  pos : Nat
  deriving DecidableEq

/-- `dst.Write(buffer[:n])`: overwrite at the current position, extending the
file when the write runs past the end, and advance the position. -/
def GoFile.write (f : GoFile) (chunk : List Nat) : GoFile :=
  { content :=
      f.content.take f.pos ++ chunk ++ f.content.drop (f.pos + chunk.length),
    pos := f.pos + chunk.length }

/-- An HTTP request as the downloader builds it: method plus headers with
`Header.Set` (replace) semantics. -/
structure GoRequest where
  method : String
  headers : List (String × String)
  deriving DecidableEq

/-- `req.Header.Set(key, value)`: replace any existing value for the key. -/
def GoRequest.setHeader (r : GoRequest) (key value : String) : GoRequest :=
  { r with headers := (r.headers.filter (fun p => p.1 ≠ key)) ++ [(key, value)] }

/-- Value of a header, `none` when absent. -/
def GoRequest.getHeader (r : GoRequest) (key : String) : Option String :=
  (r.headers.find? (fun p => p.1 = key)).map Prod.snd

/-- Outcomes of the environment for one `HTTPDownloader.Download` call: the
fallible file operations, the HEAD probe, and the GET round trip.  `getStatus`
is the status code of the GET response; `getContentLength` is `int64`
(`-1` when the length is unknown).  `body` lists the successive successful
`Read` results (each at most 4096 bytes); after they are exhausted the next
read yields a clean EOF when `readErr = none` and the error otherwise. -/
structure DownloadEnv where
  seekStartErr : Option GoError
  headErr : Option GoError
  headStatus : Nat
  headAcceptRanges : String
  statErr : Option GoError
  seekEndErr : Option GoError
  getErr : Option GoError
  getStatus : Nat
  getContentLength : Int
  body : List (List Nat)
  readErr : Option GoError
  deriving DecidableEq

/-- Go `uint(i)` for an `int64` `i`: two's-complement reinterpretation,
i.e. `i` modulo `2^64`. -/
def uintOfInt (i : Int) : Nat := (i % (2 ^ 64 : Int)).toNat

/-- One iteration of the streaming loop on a successful read: add the chunk
length to the progress counter (`uint` addition) and write the chunk. -/
def loopStep (s : HTTPDownloader × GoFile) (chunk : List Nat) :
    HTTPDownloader × GoFile :=
  ({ s.1 with progress := (s.1.progress + chunk.length) % 2 ^ 64 },
   s.2.write chunk)

/-- The streaming loop over the successful reads. -/
def runChunks (chunks : List (List Nat)) (s : HTTPDownloader × GoFile) :
    HTTPDownloader × GoFile :=
  chunks.foldl loopStep s

/-- The streaming loop including the terminal read: after the chunks, a clean
EOF breaks out of the loop and a read error is returned (the source drops any
bytes accompanying a non-EOF read error, so no state change precedes it). -/
def readLoop (chunks : List (List Nat)) (readErr : Option GoError)
    (s : HTTPDownloader × GoFile) :
    Except GoError (HTTPDownloader × GoFile) :=
  let s' := runChunks chunks s
  match readErr with
  | none => .ok s'
  | some e => .error e

/-- The phase of `Download` before the GET round trip, assuming the initial
seek succeeded: progress reset, request construction with the user agent, the
HEAD probe with the resume branch, and switching the method to GET.  Returns
the downloader, destination and request as they stand when the GET is
issued. -/
def preGet (d : HTTPDownloader) (dst : GoFile) (env : DownloadEnv) :
    HTTPDownloader × GoFile × GoRequest :=
  let dst := { dst with pos := 0 }
  let d := { d with progress := 0 }
  let req : GoRequest := { method := "HEAD", headers := [] }
  let req :=
    if d.userAgent ≠ "" then req.setHeader "User-Agent" d.userAgent else req
  let (d, dst, req) :=
    if env.headErr = none ∧ 200 ≤ env.headStatus ∧ env.headStatus < 300 then
      if env.headAcceptRanges = "bytes" then
        if env.statErr = none then
          if env.seekEndErr = none then
            let size := dst.content.length
            ({ d with progress := size % 2 ^ 64 },
             { dst with pos := dst.content.length },
             req.setHeader "Range" ("bytes=" ++ toString size ++ "-"))
          else (d, dst, req)
        else (d, dst, req)
      else (d, dst, req)
    else (d, dst, req)
  (d, dst, { req with method := "GET" })

/-- `HTTPDownloader.Download`: seek to the start, reset progress, probe with
HEAD and arm the resume branch when possible, issue the GET, set
`total = progress + uint(ContentLength)` (`uint` arithmetic), then stream the
body in chunks.  Returns the final downloader and destination together with
the GET request (so the sent headers are observable), or the first error. -/
def HTTPDownloader.Download (d : HTTPDownloader) (dst : GoFile)
    (env : DownloadEnv) :
    Except GoError (HTTPDownloader × GoFile × GoRequest) :=
  match env.seekStartErr with
  | some e => .error e
  | none =>
      let (d, dst, req) := preGet d dst env
      match env.getErr with
      | some e => .error e
      | none =>
          let d :=
            { d with total :=
                (d.progress + uintOfInt env.getContentLength) % 2 ^ 64 }
          match readLoop env.body env.readErr (d, dst) with
          | .error e => .error e
          | .ok (d, dst) => .ok (d, dst, req)

/-- Total number of body bytes delivered by the successful reads. -/
def sumLens (chunks : List (List Nat)) : Nat :=
  (chunks.map List.length).sum

/-- A concrete configuration used to instantiate theorems with hypotheses. -/
def sampleConfig : DownloadConfig :=
  { url := "http://example.com/file", targetPath := "out.bin",
    downloaderMap := none, copyFile := false, hashName := "sha256",
    checksum := [], userAgent := "ua" }

example :
    HTTPDownloader.Download { userAgent := "ua" } { content := [], pos := 0 }
      { seekStartErr := none, headErr := some "refused", headStatus := 0,
        headAcceptRanges := "", statErr := none, seekEndErr := none,
        getErr := none, getStatus := 200, getContentLength := 3,
        body := [[1, 2, 3]], readErr := none } =
    .ok ({ progress := 3, total := 3, userAgent := "ua" },
      { content := [1, 2, 3], pos := 3 },
      { method := "GET", headers := [("User-Agent", "ua")] }) := by
  rfl

/-! ## Basic lemmas about the client -/

theorem Get_fst (c : DownloadClient) (e : GetEnv) : (c.Get e).1 = c := by
  cases hw : e.getwdErr with
  | some w => simp [DownloadClient.Get, hw]
  | none =>
      cases hg : e.getterErr with
      | some g => simp [DownloadClient.Get, hw, hg]
      | none => simp [DownloadClient.Get, hw, hg]

theorem getMany_eq (c : DownloadClient) (envs : List GetEnv) :
    getMany c envs = c := by
  induction envs generalizing c with
  | nil => rfl
  | cons e es ih =>
      have h1 : getMany c (e :: es) = getMany (c.Get e).1 es := rfl
      rw [h1, Get_fst]
      exact ih c

/-- C7: `DownloadClient.Get` never assigns the client's `downloader` field (the
fetch is delegated wholesale to the external go-getter collaborator), so any
client built by `NewDownloadClient` — whose `downloader` starts out `nil` —
reports `PercentProgress() = -1` before, during and after any number of
`Get()` calls. -/
theorem get_never_activates_downloader (c : DownloadClient) (envs : List GetEnv)
    (h : c.downloader = none) :
    (∀ cfg : DownloadConfig, (NewDownloadClient cfg).2.downloader = none) ∧
    (getMany c envs).downloader = none ∧
    (getMany c envs).PercentProgress = some (-1) := by
  refine ⟨fun cfg => rfl, ?_, ?_⟩
  · rw [getMany_eq]
    exact h
  · rw [getMany_eq]
    simp [DownloadClient.PercentProgress, h]

/-- Witness for C7 at a concrete client and one concrete `Get` call. -/
theorem get_never_activates_downloader_witness :
    ({ config := sampleConfig } : DownloadClient).downloader = none ∧
    (getMany { config := sampleConfig }
      [{ getwdErr := none, getterErr := none }]).PercentProgress = some (-1) :=
  ⟨rfl, (get_never_activates_downloader { config := sampleConfig }
    [{ getwdErr := none, getterErr := none }] rfl).2.2⟩

/-- C10: when the configuration's `DownloaderMap` is `nil`, `NewDownloadClient`
installs a registry with exactly the keys `"http"` and `"https"`, each bound to
a fresh `HTTPDownloader` carrying the configuration's user agent, and leaves
every other field of the configuration unchanged; when the map is non-`nil`
the configuration is not mutated at all. -/
theorem newDownloadClient_registry (c : DownloadConfig) :
    (c.downloaderMap = none →
      (NewDownloadClient c).1.downloaderMap =
        some (defaultDownloaderMap c.userAgent) ∧
      (defaultDownloaderMap c.userAgent).lookup "http" =
        some { userAgent := c.userAgent } ∧
      (defaultDownloaderMap c.userAgent).lookup "https" =
        some { userAgent := c.userAgent } ∧
      (∀ k, ((defaultDownloaderMap c.userAgent).lookup k).isSome ↔
        k = "http" ∨ k = "https") ∧
      (NewDownloadClient c).1.url = c.url ∧
      (NewDownloadClient c).1.targetPath = c.targetPath ∧
      (NewDownloadClient c).1.copyFile = c.copyFile ∧
      (NewDownloadClient c).1.hashName = c.hashName ∧
      (NewDownloadClient c).1.checksum = c.checksum ∧
      (NewDownloadClient c).1.userAgent = c.userAgent) ∧
    (∀ m0, c.downloaderMap = some m0 → (NewDownloadClient c).1 = c) := by
  constructor
  · intro h
    refine ⟨?_, ?_, ?_, ?_, ?_, ?_, ?_, ?_, ?_, ?_⟩
    · simp [NewDownloadClient, h]
    · simp [defaultDownloaderMap, List.lookup]
    · simp [defaultDownloaderMap, List.lookup]
    · intro k
      by_cases hk : k = "http"
      · simp [defaultDownloaderMap, List.lookup, hk]
      · by_cases hk2 : k = "https"
        · simp [defaultDownloaderMap, List.lookup, hk, hk2]
        · have b1 : (k == "http") = false := beq_eq_false_iff_ne.mpr hk
          have b2 : (k == "https") = false := beq_eq_false_iff_ne.mpr hk2
          simp [defaultDownloaderMap, List.lookup, b1, b2, hk, hk2]
    · simp [NewDownloadClient, h]
    · simp [NewDownloadClient, h]
    · simp [NewDownloadClient, h]
    · simp [NewDownloadClient, h]
    · simp [NewDownloadClient, h]
    · simp [NewDownloadClient, h]
  · intro m0 h
    simp [NewDownloadClient, h]

/-- Witness for C10: a config with a `nil` map gets the default registry; a
config with a supplied (empty) map is returned unchanged. -/
theorem newDownloadClient_registry_witness :
    (NewDownloadClient sampleConfig).1.downloaderMap =
      some (defaultDownloaderMap "ua") ∧
    (NewDownloadClient { sampleConfig with downloaderMap := some [] }).1 =
      { sampleConfig with downloaderMap := some [] } := by
  constructor
  · exact ((newDownloadClient_registry sampleConfig).1 rfl).1
  · exact (newDownloadClient_registry
      { sampleConfig with downloaderMap := some [] }).2 [] rfl

/-- C1: the claim holds for the inactive case (`-1` when no downloader is
active) but fails for an active downloader: `PercentProgress` performs the
float division with no guard.  A downloader with `progress = 2, total = 1` —
reached by `Download` itself when resuming a 2-byte destination against a GET
response of unknown content length, so that `total` wraps to `progress - 1` —
makes `PercentProgress` return `200`, outside `[0,100]`; and with `total = 0`
and positive progress the division yields `+Inf`, whose conversion to `int` is
implementation-dependent (`none` in the model), not the `0` or `-1` the spec
requires. -/
theorem percentProgress_code_bug :
    ({ config := sampleConfig } : DownloadClient).PercentProgress = some (-1) ∧
    HTTPDownloader.Download {} { content := [9, 9], pos := 0 }
      { seekStartErr := none, headErr := none, headStatus := 200,
        headAcceptRanges := "bytes", statErr := none, seekEndErr := none,
        getErr := none, getStatus := 200, getContentLength := -1,
        body := [], readErr := none } =
      .ok ({ progress := 2, total := 1 }, { content := [9, 9], pos := 2 },
        { method := "GET", headers := [("Range", "bytes=2-")] }) ∧
    ({ config := sampleConfig,
       downloader := some { progress := 2, total := 1 } } :
      DownloadClient).PercentProgress = some 200 ∧
    ({ config := sampleConfig,
       downloader := some { progress := 1, total := 0 } } :
      DownloadClient).PercentProgress = none ∧
    ¬ (200 : Int) ≤ 100 := by
  refine ⟨rfl, by rfl, ?_, ?_, by decide⟩
  · show goFloatToInt (goMul (goDiv (natToGoFloat 2) (natToGoFloat 1))
      (natToGoFloat 100)) = some 200
    have hdiv : goDiv (natToGoFloat 2) (natToGoFloat 1) = .finite 2 := by
      simp [goDiv, natToGoFloat]
    have hmul : goMul (.finite 2) (natToGoFloat 100) = .finite 200 := by
      simp [goMul, natToGoFloat]
      norm_num
    rw [hdiv, hmul]
    simp [goFloatToInt, truncRat]
  · show goFloatToInt (goMul (goDiv (natToGoFloat 1) (natToGoFloat 0))
      (natToGoFloat 100)) = none
    have hdiv : goDiv (natToGoFloat 1) (natToGoFloat 0) = .posInf := by
      simp [goDiv, natToGoFloat]
    have hmul : goMul GoFloat.posInf (natToGoFloat 100) = .posInf := by
      simp [goMul, natToGoFloat]
    rw [hdiv, hmul]
    rfl

/-! ## Lemmas about the streaming loop -/

theorem runChunks_cons (c : List Nat) (cs : List (List Nat))
    (s : HTTPDownloader × GoFile) :
    runChunks (c :: cs) s = runChunks cs (loopStep s c) := rfl

theorem sumLens_cons (c : List Nat) (cs : List (List Nat)) :
    sumLens (c :: cs) = c.length + sumLens cs := by
  simp [sumLens]

theorem sumLens_append (l₁ l₂ : List (List Nat)) :
    sumLens (l₁ ++ l₂) = sumLens l₁ + sumLens l₂ := by
  simp [sumLens]

theorem runChunks_progress (cs : List (List Nat)) (d : HTTPDownloader)
    (f : GoFile) (h : d.progress < 2 ^ 64) :
    (runChunks cs (d, f)).1.progress = (d.progress + sumLens cs) % 2 ^ 64 := by
  induction cs generalizing d f with
  | nil =>
      have h0 : sumLens [] = 0 := rfl
      simp only [runChunks, List.foldl_nil, h0, Nat.add_zero]
      omega
  | cons c cs ih =>
      have h2 : (d.progress + c.length) % 2 ^ 64 < 2 ^ 64 :=
        Nat.mod_lt _ (by positivity)
      have ih' := ih { d with progress := (d.progress + c.length) % 2 ^ 64 }
        (f.write c) h2
      rw [runChunks_cons]
      have hstep : loopStep (d, f) c =
          ({ d with progress := (d.progress + c.length) % 2 ^ 64 },
           f.write c) := rfl
      rw [hstep, ih', Nat.mod_add_mod, sumLens_cons, Nat.add_assoc]

theorem runChunks_total (cs : List (List Nat)) (s : HTTPDownloader × GoFile) :
    (runChunks cs s).1.total = s.1.total := by
  induction cs generalizing s with
  | nil => rfl
  | cons c cs ih => rw [runChunks_cons]; exact ih _

theorem runChunks_pos (cs : List (List Nat)) (s : HTTPDownloader × GoFile) :
    (runChunks cs s).2.pos = s.2.pos + sumLens cs := by
  induction cs generalizing s with
  | nil =>
      have : sumLens [] = 0 := rfl
      simp [runChunks, this]
  | cons c cs ih =>
      rw [runChunks_cons, ih, sumLens_cons]
      have : (loopStep s c).2.pos = s.2.pos + c.length := rfl
      rw [this, Nat.add_assoc]

theorem runChunks_content (cs : List (List Nat)) (d : HTTPDownloader)
    (f : GoFile) (h : f.pos ≤ f.content.length) :
    (runChunks cs (d, f)).2.content =
      f.content.take f.pos ++ cs.flatten ++
        f.content.drop (f.pos + sumLens cs) := by
  induction cs generalizing d f with
  | nil =>
      have h0 : sumLens [] = 0 := rfl
      simp [runChunks, h0, List.take_append_drop]
  | cons c cs ih =>
      rw [runChunks_cons]
      have hstep : loopStep (d, f) c =
          ({ d with progress := (d.progress + c.length) % 2 ^ 64 },
           f.write c) := rfl
      rw [hstep]
      have hlen : (f.write c).pos ≤ (f.write c).content.length := by
        simp only [GoFile.write, List.length_append, List.length_take,
          List.length_drop]
        omega
      rw [ih _ _ hlen]
      have hA : (f.write c).content.take (f.write c).pos =
          f.content.take f.pos ++ c := by
        simp only [GoFile.write]
        rw [show f.content.take f.pos ++ c ++
            f.content.drop (f.pos + c.length) =
            (f.content.take f.pos ++ c) ++
            f.content.drop (f.pos + c.length) by simp [List.append_assoc]]
        have hlen2 : (f.content.take f.pos ++ c).length = f.pos + c.length := by
          simp [List.length_take, Nat.min_eq_left h]
        rw [List.take_left' hlen2]
      have hB : (f.write c).content.drop ((f.write c).pos + sumLens cs) =
          f.content.drop (f.pos + sumLens (c :: cs)) := by
        simp only [GoFile.write]
        rw [show f.content.take f.pos ++ c ++
            f.content.drop (f.pos + c.length) =
            (f.content.take f.pos ++ c) ++
            f.content.drop (f.pos + c.length) by simp [List.append_assoc]]
        have hlen2 : (f.content.take f.pos ++ c).length = f.pos + c.length := by
          simp [List.length_take, Nat.min_eq_left h]
        rw [show f.pos + c.length + sumLens cs =
            (f.content.take f.pos ++ c).length + sumLens cs by rw [hlen2]]
        rw [List.drop_append, List.drop_drop, sumLens_cons]
        congr 1
        omega
      rw [hA, hB]
      simp [List.append_assoc]

/-! ## Lemmas about request headers and the pre-GET phase -/

theorem getHeader_setHeader_self (r : GoRequest) (k v : String) :
    (r.setHeader k v).getHeader k = some v := by
  unfold GoRequest.setHeader GoRequest.getHeader
  simp only
  have hfind : ∀ l : List (String × String),
      (l.filter (fun p => p.1 ≠ k) ++ [(k, v)]).find? (fun p => p.1 = k) =
        some (k, v) := by
    intro l
    induction l with
    | nil => simp [List.find?]
    | cons p l ih =>
        by_cases hp : p.1 = k
        · simp [List.filter_cons, hp, ih]
        · simp only [List.filter_cons]
          rw [if_pos (by simpa using hp)]
          rw [List.cons_append, List.find?_cons_of_neg _ (by simpa using hp)]
          exact ih
  rw [hfind]
  rfl

theorem preGet_noResume (d : HTTPDownloader) (dst : GoFile) (env : DownloadEnv)
    (h : ¬ env.headErr = none ∨
      ¬ (200 ≤ env.headStatus ∧ env.headStatus < 300) ∨
      ¬ env.headAcceptRanges = "bytes") :
    preGet d dst env =
      ({ d with progress := 0 }, { dst with pos := 0 },
       { method := "GET",
         headers := if d.userAgent ≠ "" then [("User-Agent", d.userAgent)]
           else [] }) := by
  simp only [preGet]
  split_ifs <;> first | tauto | simp [GoRequest.setHeader]

theorem preGet_resume (d : HTTPDownloader) (dst : GoFile) (env : DownloadEnv)
    (hhead : env.headErr = none)
    (hlo : 200 ≤ env.headStatus) (hhi : env.headStatus < 300)
    (har : env.headAcceptRanges = "bytes")
    (hstat : env.statErr = none) (hseekEnd : env.seekEndErr = none) :
    preGet d dst env =
      ({ d with progress := dst.content.length % 2 ^ 64 },
       { dst with pos := dst.content.length },
       { method := "GET",
         headers := (if d.userAgent ≠ "" then [("User-Agent", d.userAgent)]
             else []) ++
           [("Range", "bytes=" ++ toString dst.content.length ++ "-")] }) := by
  simp only [preGet]
  split_ifs <;> first | tauto | simp [GoRequest.setHeader]

theorem preGet_content (d : HTTPDownloader) (dst : GoFile) (env : DownloadEnv) :
    (preGet d dst env).2.1.content = dst.content := by
  unfold preGet
  by_cases h1 : env.headErr = none ∧ 200 ≤ env.headStatus ∧ env.headStatus < 300 <;>
    by_cases h2 : env.headAcceptRanges = "bytes" <;>
    by_cases h3 : env.statErr = none <;>
    by_cases h4 : env.seekEndErr = none <;>
    simp [h1, h2, h3, h4]

theorem preGet_progress_eq_pos (d : HTTPDownloader) (dst : GoFile)
    (env : DownloadEnv) (hlen : dst.content.length < 2 ^ 64) :
    (preGet d dst env).1.progress = (preGet d dst env).2.1.pos := by
  simp only [preGet]
  split_ifs <;> simp <;> omega

theorem preGet_pos_le (d : HTTPDownloader) (dst : GoFile) (env : DownloadEnv) :
    (preGet d dst env).2.1.pos ≤ (preGet d dst env).2.1.content.length := by
  unfold preGet
  by_cases h1 : env.headErr = none ∧ 200 ≤ env.headStatus ∧ env.headStatus < 300 <;>
    by_cases h2 : env.headAcceptRanges = "bytes" <;>
    by_cases h3 : env.statErr = none <;>
    by_cases h4 : env.seekEndErr = none <;>
    simp [h1, h2, h3, h4]

theorem preGet_progress_lt (d : HTTPDownloader) (dst : GoFile)
    (env : DownloadEnv) (hlen : dst.content.length < 2 ^ 64) :
    (preGet d dst env).1.progress < 2 ^ 64 := by
  unfold preGet
  by_cases h1 : env.headErr = none ∧ 200 ≤ env.headStatus ∧ env.headStatus < 300 <;>
    by_cases h2 : env.headAcceptRanges = "bytes" <;>
    by_cases h3 : env.statErr = none <;>
    by_cases h4 : env.seekEndErr = none <;>
    simp [h1, h2, h3, h4] <;>
    omega

theorem Download_ok (d : HTTPDownloader) (dst : GoFile) (env : DownloadEnv)
    (h1 : env.seekStartErr = none) (h2 : env.getErr = none)
    (h3 : env.readErr = none) :
    HTTPDownloader.Download d dst env =
      .ok ((runChunks env.body
            ({ (preGet d dst env).1 with total :=
                ((preGet d dst env).1.progress +
                  uintOfInt env.getContentLength) % 2 ^ 64 },
             (preGet d dst env).2.1)).1,
           (runChunks env.body
            ({ (preGet d dst env).1 with total :=
                ((preGet d dst env).1.progress +
                  uintOfInt env.getContentLength) % 2 ^ 64 },
             (preGet d dst env).2.1)).2,
           (preGet d dst env).2.2) := by
  unfold HTTPDownloader.Download readLoop
  rw [h1, h2, h3]

/-! ## C2, C3, C4: the GET round trip -/

theorem length_flatten_sumLens (cs : List (List Nat)) :
    cs.flatten.length = sumLens cs := by
  simp [sumLens]

/-- C2 counterexample: the probe fails, the GET comes back with status 404,
and `Download` succeeds anyway — the source never inspects the GET status
code, so no `StatusError` is surfaced. -/
theorem download_get_status_cex :
    HTTPDownloader.Download {} { content := [], pos := 0 }
      { seekStartErr := none, headErr := some "connection refused",
        headStatus := 0, headAcceptRanges := "", statErr := none,
        seekEndErr := none, getErr := none, getStatus := 404,
        getContentLength := 3, body := [[1, 2, 3]], readErr := none } =
      .ok ({ progress := 3, total := 3 }, { content := [1, 2, 3], pos := 3 },
        { method := "GET", headers := [] }) := by
  rfl

/-- C2 amended: `HTTPDownloader.Download` never inspects the GET response's
status code — its outcome is identical for every status value — and whenever
the initial seek, the GET transport and all body reads succeed it returns
success, non-2xx GET status included. -/
theorem download_ignores_get_status (d : HTTPDownloader) (dst : GoFile)
    (env : DownloadEnv) (s : Nat) :
    HTTPDownloader.Download d dst { env with getStatus := s } =
      HTTPDownloader.Download d dst env ∧
    (env.seekStartErr = none → env.getErr = none → env.readErr = none →
      ∃ r, HTTPDownloader.Download d dst env = .ok r) := by
  constructor
  · rfl
  · intro h1 h2 h3
    exact ⟨_, Download_ok d dst env h1 h2 h3⟩

/-- Witness for the amended C2 at a concrete 404-GET environment. -/
theorem download_ignores_get_status_witness :
    HTTPDownloader.Download {} { content := [], pos := 0 }
      { seekStartErr := none, headErr := some "connection refused",
        headStatus := 0, headAcceptRanges := "", statErr := none,
        seekEndErr := none, getErr := none, getStatus := 404,
        getContentLength := 2, body := [[4, 5]], readErr := none } =
      HTTPDownloader.Download {} { content := [], pos := 0 }
        { seekStartErr := none, headErr := some "connection refused",
          headStatus := 0, headAcceptRanges := "", statErr := none,
          seekEndErr := none, getErr := none, getStatus := 200,
          getContentLength := 2, body := [[4, 5]], readErr := none } ∧
    ∃ r, HTTPDownloader.Download {} { content := [], pos := 0 }
      { seekStartErr := none, headErr := some "connection refused",
        headStatus := 0, headAcceptRanges := "", statErr := none,
        seekEndErr := none, getErr := none, getStatus := 200,
        getContentLength := 2, body := [[4, 5]], readErr := none } = .ok r := by
  refine ⟨?_, ?_⟩
  · exact (download_ignores_get_status {} { content := [], pos := 0 }
      { seekStartErr := none, headErr := some "connection refused",
        headStatus := 0, headAcceptRanges := "", statErr := none,
        seekEndErr := none, getErr := none, getStatus := 200,
        getContentLength := 2, body := [[4, 5]], readErr := none } 404).1
  · exact (download_ignores_get_status {} { content := [], pos := 0 }
      { seekStartErr := none, headErr := some "connection refused",
        headStatus := 0, headAcceptRanges := "", statErr := none,
        seekEndErr := none, getErr := none, getStatus := 200,
        getContentLength := 2, body := [[4, 5]], readErr := none } 404).2
      rfl rfl rfl

/-- C3: with a successful 2xx probe advertising `Accept-Ranges: bytes`, and
the destination's size and end-seek obtainable, `Download` sends
`Range: bytes=S-` on the GET (where `S` is the existing destination size),
sets the progress counter to `S`, and appends the body after the existing
content (so a 4096-byte destination plus a 5904-byte remainder ends at size
10000 with progress 10000). -/
theorem download_resume_range (d : HTTPDownloader) (dst : GoFile)
    (env : DownloadEnv)
    (hseek0 : env.seekStartErr = none)
    (hhead : env.headErr = none)
    (hlo : 200 ≤ env.headStatus) (hhi : env.headStatus < 300)
    (har : env.headAcceptRanges = "bytes")
    (hstat : env.statErr = none) (hseekEnd : env.seekEndErr = none)
    (hget : env.getErr = none) (hread : env.readErr = none)
    (hW : dst.content.length + sumLens env.body < 2 ^ 64) :
    ∃ d' dst' req,
      HTTPDownloader.Download d dst env = .ok (d', dst', req) ∧
      req.method = "GET" ∧
      req.getHeader "Range" =
        some ("bytes=" ++ toString dst.content.length ++ "-") ∧
      (preGet d dst env).1.progress = dst.content.length ∧
      dst'.content = dst.content ++ env.body.flatten ∧
      d'.Progress = dst.content.length + sumLens env.body := by
  have hlen : dst.content.length < 2 ^ 64 := by omega
  have hpre := preGet_resume d dst env hhead hlo hhi har hstat hseekEnd
  rw [Download_ok d dst env hseek0 hget hread, hpre]
  refine ⟨_, _, _, rfl, rfl, ?_, ?_, ?_, ?_⟩
  · by_cases hua : d.userAgent ≠ "" <;>
      simp [hua, GoRequest.getHeader]
  · exact Nat.mod_eq_of_lt hlen
  · rw [runChunks_content _ _ _ (by simp)]
    simp only [List.take_length]
    rw [List.drop_eq_nil_of_le (Nat.le_add_right _ _)]
    simp
  · unfold HTTPDownloader.Progress
    rw [runChunks_progress _ _ _ (by simp; exact Nat.mod_lt _ (by positivity))]
    simp only
    omega

/-- Witness for C3: resuming a 2-byte destination with a 3-byte remainder
sends `Range: bytes=2-` and appends the bytes. -/
theorem download_resume_range_witness :
    ∃ d' dst' req,
      HTTPDownloader.Download {} { content := [7, 7], pos := 0 }
        { seekStartErr := none, headErr := none, headStatus := 200,
          headAcceptRanges := "bytes", statErr := none, seekEndErr := none,
          getErr := none, getStatus := 206, getContentLength := 3,
          body := [[1, 2, 3]], readErr := none } = .ok (d', dst', req) ∧
      req.getHeader "Range" = some "bytes=2-" ∧
      dst'.content = [7, 7, 1, 2, 3] ∧
      d'.Progress = 5 := by
  obtain ⟨d', dst', req, h1, -, h3, -, h5, h6⟩ :=
    download_resume_range {} { content := [7, 7], pos := 0 }
      { seekStartErr := none, headErr := none, headStatus := 200,
        headAcceptRanges := "bytes", statErr := none, seekEndErr := none,
        getErr := none, getStatus := 206, getContentLength := 3,
        body := [[1, 2, 3]], readErr := none }
      rfl rfl (by norm_num) (by norm_num) rfl rfl rfl rfl rfl (by decide)
  exact ⟨d', dst', req, h1, h3, h5, h6⟩

/-- C4: when the probe fails outright, returns a non-2xx status, or the
response lacks `Accept-Ranges: bytes`, the resume branch is skipped: the
progress counter starts at 0, the write position is at offset 0 before any
write, no `Range` header is sent, the full body is written from offset 0, and
`Download` reports no error on account of the probe (it succeeds whenever the
seek, GET transport and reads succeed). -/
theorem download_probe_failure_no_resume (d : HTTPDownloader) (dst : GoFile)
    (env : DownloadEnv)
    (hprobe : ¬ env.headErr = none ∨
      ¬ (200 ≤ env.headStatus ∧ env.headStatus < 300) ∨
      ¬ env.headAcceptRanges = "bytes")
    (hseek0 : env.seekStartErr = none)
    (hget : env.getErr = none) (hread : env.readErr = none)
    (hW : sumLens env.body < 2 ^ 64) :
    (preGet d dst env).1.progress = 0 ∧
    (preGet d dst env).2.1.pos = 0 ∧
    (preGet d dst env).2.2.getHeader "Range" = none ∧
    ∃ d' dst' req,
      HTTPDownloader.Download d dst env = .ok (d', dst', req) ∧
      d'.Progress = sumLens env.body ∧
      dst'.content =
        env.body.flatten ++ dst.content.drop (sumLens env.body) ∧
      dst'.content.take (sumLens env.body) = env.body.flatten := by
  have hpre := preGet_noResume d dst env hprobe
  rw [Download_ok d dst env hseek0 hget hread, hpre]
  refine ⟨rfl, rfl, ?_, _, _, _, rfl, ?_, ?_, ?_⟩
  · by_cases hua : d.userAgent ≠ "" <;>
      simp [hua, GoRequest.getHeader]
  · unfold HTTPDownloader.Progress
    rw [runChunks_progress _ _ _ (by simp)]
    simp only
    omega
  · rw [runChunks_content _ _ _ (by simp)]
    simp
  · rw [runChunks_content _ _ _ (by simp)]
    simp only [List.take_zero, List.nil_append]
    rw [List.take_left' (length_flatten_sumLens env.body)]

/-- Witness for C4: probe returns 404, GET delivers the body; no `Range`
header, write from offset 0 (stale third byte survives past the new bytes),
no error. -/
theorem download_probe_failure_no_resume_witness :
    (preGet {} { content := [9, 9, 9], pos := 0 }
      { seekStartErr := none, headErr := none, headStatus := 404,
        headAcceptRanges := "bytes", statErr := none, seekEndErr := none,
        getErr := none, getStatus := 200, getContentLength := 2,
        body := [[5, 6]], readErr := none }).2.2.getHeader "Range" = none ∧
    ∃ d' dst' req,
      HTTPDownloader.Download {} { content := [9, 9, 9], pos := 0 }
        { seekStartErr := none, headErr := none, headStatus := 404,
          headAcceptRanges := "bytes", statErr := none, seekEndErr := none,
          getErr := none, getStatus := 200, getContentLength := 2,
          body := [[5, 6]], readErr := none } = .ok (d', dst', req) ∧
      d'.Progress = 2 ∧ dst'.content = [5, 6, 9] := by
  obtain ⟨-, -, h3, d', dst', req, h4, h5, h6, -⟩ :=
    download_probe_failure_no_resume {} { content := [9, 9, 9], pos := 0 }
      { seekStartErr := none, headErr := none, headStatus := 404,
        headAcceptRanges := "bytes", statErr := none, seekEndErr := none,
        getErr := none, getStatus := 200, getContentLength := 2,
        body := [[5, 6]], readErr := none }
      (Or.inr (Or.inl (by decide))) rfl rfl rfl (by decide)
  exact ⟨h3, d', dst', req, h4, h5, h6⟩

/-! ## C5, C6, C9: progress, total and the content length -/

theorem uintOfInt_natCast (n : Nat) : uintOfInt (n : Int) = n % 2 ^ 64 := by
  unfold uintOfInt
  have h : ((n : Int) % (2 ^ 64 : Int)) = ((n % 2 ^ 64 : Nat) : Int) := by
    push_cast
    rfl
  rw [h]
  exact Int.toNat_natCast _

/-- C5 counterexample: a successful transfer with unknown content length
(`-1`): `Download` returns no error with `Progress() = 3` but
`Total() = 2^64 - 1`, so progress, total and the destination size do not
coincide. -/
theorem download_progress_total_cex :
    HTTPDownloader.Download {} { content := [], pos := 0 }
      { seekStartErr := none, headErr := some "connection refused",
        headStatus := 0, headAcceptRanges := "", statErr := none,
        seekEndErr := none, getErr := none, getStatus := 200,
        getContentLength := -1, body := [[1, 2, 3]], readErr := none } =
      .ok ({ progress := 3, total := 18446744073709551615 },
        { content := [1, 2, 3], pos := 3 },
        { method := "GET", headers := [] }) ∧
    ({ progress := 3, total := 18446744073709551615,
       userAgent := "" } : HTTPDownloader).Progress ≠
      ({ progress := 3, total := 18446744073709551615,
         userAgent := "" } : HTTPDownloader).Total :=
  ⟨by rfl, by decide⟩

/-- C5 amended: when `Download` succeeds **and** the GET content length is the
actual number of body bytes **and** the prior destination content does not
extend past the final write position **and** no 64-bit wrap occurs, then at
completion `Progress() = Total() =` the destination's byte count.  (The
counterexample shows the unconditional claim fails for unknown content
length; stale trailing bytes break the size equality likewise.) -/
theorem download_success_progress_total_size (d : HTTPDownloader)
    (dst : GoFile) (env : DownloadEnv)
    (hseek0 : env.seekStartErr = none) (hget : env.getErr = none)
    (hread : env.readErr = none)
    (hCL : env.getContentLength = (sumLens env.body : Int))
    (hlen : dst.content.length < 2 ^ 64)
    (hW : (preGet d dst env).1.progress + sumLens env.body < 2 ^ 64)
    (hstale : dst.content.length ≤
      (preGet d dst env).2.1.pos + sumLens env.body) :
    ∃ d' dst' req,
      HTTPDownloader.Download d dst env = .ok (d', dst', req) ∧
      d'.Progress = d'.Total ∧ d'.Total = dst'.content.length := by
  have hpp := preGet_progress_eq_pos d dst env hlen
  have hple := preGet_pos_le d dst env
  have hpc := preGet_content d dst env
  have hp0 : (preGet d dst env).1.progress < 2 ^ 64 := by omega
  have hple2 := hple
  rw [hpc] at hple2
  rw [Download_ok d dst env hseek0 hget hread, hCL, uintOfInt_natCast]
  refine ⟨_, _, _, rfl, ?_, ?_⟩
  · unfold HTTPDownloader.Progress HTTPDownloader.Total
    rw [runChunks_progress, runChunks_total]
    · show ((preGet d dst env).1.progress + sumLens env.body) % 2 ^ 64 =
        ((preGet d dst env).1.progress + sumLens env.body % 2 ^ 64) % 2 ^ 64
      omega
    · exact hp0
  · unfold HTTPDownloader.Total
    rw [runChunks_total, runChunks_content _ _ _ hple]
    show ((preGet d dst env).1.progress + sumLens env.body % 2 ^ 64) % 2 ^ 64 = _
    simp only [List.length_append, List.length_take, List.length_drop,
      length_flatten_sumLens, hpc]
    omega

/-- Witness for the amended C5: resume of a 2-byte destination with a 3-byte
remainder whose content length is correct. -/
theorem download_success_progress_total_size_witness :
    ∃ d' dst' req,
      HTTPDownloader.Download {} { content := [7, 7], pos := 0 }
        { seekStartErr := none, headErr := none, headStatus := 200,
          headAcceptRanges := "bytes", statErr := none, seekEndErr := none,
          getErr := none, getStatus := 206, getContentLength := 3,
          body := [[1, 2], [3]], readErr := none } = .ok (d', dst', req) ∧
      d'.Progress = d'.Total ∧ d'.Total = dst'.content.length := by
  exact download_success_progress_total_size {} { content := [7, 7], pos := 0 }
    { seekStartErr := none, headErr := none, headStatus := 200,
      headAcceptRanges := "bytes", statErr := none, seekEndErr := none,
      getErr := none, getStatus := 206, getContentLength := 3,
      body := [[1, 2], [3]], readErr := none }
    rfl rfl rfl (by decide) (by decide) (by decide) (by decide)

/-- C6: the total-bytes value is computed exactly once, before streaming, as
the progress counter at the start of the GET plus the GET response's content
length (`uint` arithmetic), and the streaming loop never modifies it. -/
theorem download_total_set_once (d : HTTPDownloader) (dst : GoFile)
    (env : DownloadEnv)
    (hseek0 : env.seekStartErr = none) (hget : env.getErr = none)
    (hread : env.readErr = none) :
    (∀ cs s, (runChunks cs s).1.Total = s.1.Total) ∧
    ∃ d' dst' req,
      HTTPDownloader.Download d dst env = .ok (d', dst', req) ∧
      d'.Total = ((preGet d dst env).1.progress +
        uintOfInt env.getContentLength) % 2 ^ 64 := by
  refine ⟨fun cs s => runChunks_total cs s, ?_⟩
  rw [Download_ok d dst env hseek0 hget hread]
  refine ⟨_, _, _, rfl, ?_⟩
  unfold HTTPDownloader.Total
  rw [runChunks_total]

/-- Witness for C6 at a concrete probe-failing environment with content
length 3: the stored total is 3. -/
theorem download_total_set_once_witness :
    ∃ d' dst' req,
      HTTPDownloader.Download {} { content := [], pos := 0 }
        { seekStartErr := none, headErr := some "refused", headStatus := 0,
          headAcceptRanges := "", statErr := none, seekEndErr := none,
          getErr := none, getStatus := 200, getContentLength := 3,
          body := [[1, 2, 3]], readErr := none } = .ok (d', dst', req) ∧
      d'.Total = 3 := by
  obtain ⟨-, d', dst', req, h1, h2⟩ :=
    download_total_set_once {} { content := [], pos := 0 }
      { seekStartErr := none, headErr := some "refused", headStatus := 0,
        headAcceptRanges := "", statErr := none, seekEndErr := none,
        getErr := none, getStatus := 200, getContentLength := 3,
        body := [[1, 2, 3]], readErr := none } rfl rfl rfl
  exact ⟨d', dst', req, h1, h2⟩

/-- C9: a GET response with unknown content length is reported as `-1`, whose
conversion to `uint` wraps to `2^64 - 1`, so the stored total is
`progress-at-GET-start + (2^64 - 1)` modulo `2^64` — i.e. `progress - 1` in
unsigned arithmetic for positive progress — rather than an "unknown" marker. -/
theorem download_unknown_length_total (d : HTTPDownloader) (dst : GoFile)
    (env : DownloadEnv)
    (hCL : env.getContentLength = -1)
    (hseek0 : env.seekStartErr = none) (hget : env.getErr = none)
    (hread : env.readErr = none) :
    uintOfInt (-1) = 2 ^ 64 - 1 ∧
    (∃ d' dst' req,
      HTTPDownloader.Download d dst env = .ok (d', dst', req) ∧
      d'.Total = ((preGet d dst env).1.progress + (2 ^ 64 - 1)) % 2 ^ 64) ∧
    (∀ p : Nat, 0 < p → p < 2 ^ 64 →
      (p + (2 ^ 64 - 1)) % 2 ^ 64 = p - 1) := by
  have hu : uintOfInt (-1) = 2 ^ 64 - 1 := by decide
  refine ⟨hu, ?_, ?_⟩
  · rw [Download_ok d dst env hseek0 hget hread]
    refine ⟨_, _, _, rfl, ?_⟩
    unfold HTTPDownloader.Total
    rw [runChunks_total]
    show ((preGet d dst env).1.progress +
      uintOfInt env.getContentLength) % 2 ^ 64 = _
    rw [hCL, hu]
  · intro p hp hlt
    omega

/-- Witness for C9: resuming a 2-byte destination against an unknown-length
response stores `total = 1 = progress - 1`. -/
theorem download_unknown_length_total_witness :
    ∃ d' dst' req,
      HTTPDownloader.Download {} { content := [9, 9], pos := 0 }
        { seekStartErr := none, headErr := none, headStatus := 200,
          headAcceptRanges := "bytes", statErr := none, seekEndErr := none,
          getErr := none, getStatus := 200, getContentLength := -1,
          body := [], readErr := none } = .ok (d', dst', req) ∧
      d'.Total = 1 := by
  obtain ⟨-, ⟨d', dst', req, h1, h2⟩, -⟩ :=
    download_unknown_length_total {} { content := [9, 9], pos := 0 }
      { seekStartErr := none, headErr := none, headStatus := 200,
        headAcceptRanges := "bytes", statErr := none, seekEndErr := none,
        getErr := none, getStatus := 200, getContentLength := -1,
        body := [], readErr := none } rfl rfl rfl rfl
  refine ⟨d', dst', req, h1, ?_⟩
  rw [h2]
  decide

/-! ## C8: monotonicity of the progress counter -/

theorem sumLens_take_le_self (l : List (List Nat)) (i : Nat) :
    sumLens (l.take i) ≤ sumLens l := by
  conv_rhs => rw [← List.take_append_drop i l]
  rw [sumLens_append]
  omega

theorem sumLens_take_mono (l : List (List Nat)) (i j : Nat) (h : i ≤ j) :
    sumLens (l.take i) ≤ sumLens (l.take j) := by
  have heq : l.take i = (l.take j).take i := by
    rw [List.take_take, Nat.min_eq_left h]
  rw [heq]
  exact sumLens_take_le_self (l.take j) i

/-- C8 amended: as long as the resume offset plus the bytes read stays below
`2^64` (no wrap of the 64-bit `uint` counter), the progress value is
monotonically non-decreasing along the streaming loop: after any longer
prefix of the reads it is at least its value after any shorter prefix.  (The
counterexample shows the unconditional claim fails at the wraparound.) -/
theorem progress_monotone_no_wrap (d : HTTPDownloader) (f : GoFile)
    (chunks : List (List Nat)) (i j : Nat)
    (hW : d.progress + sumLens chunks < 2 ^ 64) (hij : i ≤ j) :
    (runChunks (chunks.take i) (d, f)).1.Progress ≤
      (runChunks (chunks.take j) (d, f)).1.Progress := by
  have hd : d.progress < 2 ^ 64 := by omega
  have h1 := runChunks_progress (chunks.take i) d f hd
  have h2 := runChunks_progress (chunks.take j) d f hd
  have hsi := sumLens_take_mono chunks i j hij
  have hsj := sumLens_take_le_self chunks j
  unfold HTTPDownloader.Progress
  rw [h1, h2]
  omega

/-- Witness for the amended C8 on a concrete two-chunk body. -/
theorem progress_monotone_no_wrap_witness :
    (runChunks (([[1], [2, 3]] : List (List Nat)).take 1)
        ({ progress := 0, total := 0, userAgent := "" },
         { content := [], pos := 0 })).1.Progress ≤
      (runChunks (([[1], [2, 3]] : List (List Nat)).take 2)
        ({ progress := 0, total := 0, userAgent := "" },
         { content := [], pos := 0 })).1.Progress :=
  progress_monotone_no_wrap { progress := 0, total := 0, userAgent := "" }
    { content := [], pos := 0 } [[1], [2, 3]] 1 2 (by decide) (by decide)

theorem sumLens_replicate (k n : Nat) :
    sumLens (List.replicate k (List.replicate n (0 : Nat))) = k * n := by
  induction k with
  | zero =>
      rw [List.replicate_zero, Nat.zero_mul]
      rfl
  | succ k ih =>
      rw [List.replicate_succ, sumLens_cons, ih, List.length_replicate]
      ring

/-- C8 counterexample: the progress counter is a wrapping 64-bit `uint`, so it
is not monotone without the no-wrap proviso.  In a transfer that starts from
the reset counter 0 (probe failed, no resume), after `2^52 - 1` full 4096-byte
reads the progress is `2^64 - 4096`, and the next full read wraps it to `0` —
a strictly longer prefix of the streaming loop shows the strictly smaller
progress value, refuting "never decreases". -/
theorem progress_wrap_cex :
    (2 : Nat) ^ 52 - 1 ≤ 2 ^ 52 ∧
    (preGet { progress := 0, total := 0, userAgent := "" }
        { content := [], pos := 0 }
        { seekStartErr := none, headErr := some "connection refused",
          headStatus := 0, headAcceptRanges := "", statErr := none,
          seekEndErr := none, getErr := none, getStatus := 200,
          getContentLength := -1,
          body := List.replicate (2 ^ 52) (List.replicate 4096 0),
          readErr := none }).1.progress = 0 ∧
    (runChunks
        ((List.replicate (2 ^ 52) (List.replicate 4096 (0 : Nat))).take
          (2 ^ 52 - 1))
        ({ progress := 0, total := 0, userAgent := "" },
         { content := [], pos := 0 })).1.progress = 2 ^ 64 - 4096 ∧
    (runChunks
        ((List.replicate (2 ^ 52) (List.replicate 4096 (0 : Nat))).take
          (2 ^ 52))
        ({ progress := 0, total := 0, userAgent := "" },
         { content := [], pos := 0 })).1.progress = 0 ∧
    ¬ ((2 : Nat) ^ 64 - 4096 ≤ 0) := by
  have htake1 : (List.replicate (2 ^ 52) (List.replicate 4096 (0 : Nat))).take
      (2 ^ 52 - 1) = List.replicate (2 ^ 52 - 1) (List.replicate 4096 (0 : Nat)) := by
    rw [List.take_replicate, Nat.min_eq_left (by norm_num)]
  have htake2 : (List.replicate (2 ^ 52) (List.replicate 4096 (0 : Nat))).take
      (2 ^ 52) = List.replicate (2 ^ 52) (List.replicate 4096 (0 : Nat)) := by
    rw [List.take_replicate, Nat.min_self]
  refine ⟨by norm_num, ?_, ?_, ?_, by norm_num⟩
  · rw [preGet_noResume _ _ _ (Or.inl (fun hc => Option.noConfusion hc))]
  · have hA0 : (runChunks
        ((List.replicate (2 ^ 52) (List.replicate 4096 (0 : Nat))).take
          (2 ^ 52 - 1))
        ({ progress := 0, total := 0, userAgent := "" },
         { content := [], pos := 0 })).1.progress =
        (runChunks
          (List.replicate (2 ^ 52 - 1) (List.replicate 4096 (0 : Nat)))
          ({ progress := 0, total := 0, userAgent := "" },
           { content := [], pos := 0 })).1.progress := by
      rw [htake1]
    have hA1 := runChunks_progress
      (List.replicate (2 ^ 52 - 1) (List.replicate 4096 (0 : Nat)))
      { progress := 0, total := 0, userAgent := "" }
      { content := [], pos := 0 } (by norm_num)
    rw [sumLens_replicate] at hA1
    have hA2 : (({ progress := 0, total := 0, userAgent := "" } :
        HTTPDownloader).progress + (2 ^ 52 - 1) * 4096) % 2 ^ 64 =
        2 ^ 64 - 4096 := by norm_num
    exact hA0.trans (hA1.trans hA2)
  · have hB0 : (runChunks
        ((List.replicate (2 ^ 52) (List.replicate 4096 (0 : Nat))).take
          (2 ^ 52))
        ({ progress := 0, total := 0, userAgent := "" },
         { content := [], pos := 0 })).1.progress =
        (runChunks
          (List.replicate (2 ^ 52) (List.replicate 4096 (0 : Nat)))
          ({ progress := 0, total := 0, userAgent := "" },
           { content := [], pos := 0 })).1.progress := by
      rw [htake2]
    have hB1 := runChunks_progress
      (List.replicate (2 ^ 52) (List.replicate 4096 (0 : Nat)))
      { progress := 0, total := 0, userAgent := "" }
      { content := [], pos := 0 } (by norm_num)
    rw [sumLens_replicate] at hB1
    have hB2 : (({ progress := 0, total := 0, userAgent := "" } :
        HTTPDownloader).progress + 2 ^ 52 * 4096) % 2 ^ 64 = 0 := by norm_num
    exact hB0.trans (hB1.trans hB2)
